import Mathlib

/-!
# Verification of the `seil` sailing-bot controller (`src/bot.py`)

Shallow embedding of the navigation controller in `src/bot.py`.  Python
floats are modelled by `ℚ`.  The external library function
`vendeeglobe.utils.distance_on_surface` (not part of this repository) is
modelled as an explicit function parameter, so every theorem quantifies
over the distance function actually used; the two query collaborators
`forecast` and `world_map` are likewise explicit function parameters whose
results are bound and discarded, exactly as in the source.
-/

set_option autoImplicit false
set_option linter.unusedVariables false

attribute [local semireducible] Rat.mul Rat.add Rat.sub Rat.inv Rat.ofScientific

namespace Seil

/-- Embedding of `vendeeglobe.Checkpoint`: a waypoint with coordinates, a
capture radius and a mutable `reached` flag (initially false). -/
structure Checkpoint where
  latitude : ℚ
  longitude : ℚ
  radius : ℚ
  reached : Bool := false
  deriving Repr, DecidableEq

/-- Embedding of `vendeeglobe.Location`: a target location directive. -/
structure Location where
  longitude : ℚ
  latitude : ℚ
  deriving Repr, DecidableEq

/-- Embedding of `vendeeglobe.Instructions`: all directive fields are
optional and initially unset, as produced by `Instructions()`. -/
structure Instructions where
  location : Option Location := none
  heading : Option ℚ := none
  vector : Option (ℚ × ℚ) := none
  left : Option ℚ := none
  right : Option ℚ := none
  sail : Option ℚ := none
  deriving Repr, DecidableEq

/-- Embedding of the `Bot` class state: the team label and the checkpoint
course (`self.team`, `self.course`). -/
structure Bot where
  team : String
  course : List Checkpoint
  deriving Repr, DecidableEq

/-- The sail value computed by lines 132-136 of `src/bot.py`:
`if dist < 2.0 * ch.radius + jump: instructions.sail = min(ch.radius / jump, 1)
else: instructions.sail = 1.0`.
The quotient `ch.radius / jump` is a numpy `float64` division, which is
total: on `jump = 0` it yields `+inf` for a positive radius (a warning,
not an exception), and `min(+inf, 1) = 1`, which is the value taken here.
(The remaining corner `jump = 0` and `radius = 0` would yield `nan`, but
that branch requires `dist < 0`, impossible for a surface distance; we
also return `1` there.) -/
def sailValue (radius jump dist : ℚ) : ℚ :=
  if dist < 2 * radius + jump then
    (if jump = 0 then 1 else min (radius / jump) 1)
  else 1

/-- The checkpoint-scanning loop of `Bot.run` (lines 123-144 of
`src/bot.py`): for each checkpoint in order, compute the surface distance,
overwrite the sail value, mark the checkpoint reached when `dist < radius`,
and stop at the first checkpoint that is (still) unreached, setting the
location directive to its coordinates.  Returns the final instructions
together with the updated course (the Python loop mutates the checkpoints
of `self.course` in place). -/
def runAux (distance_on_surface : ℚ → ℚ → ℚ → ℚ → ℚ)
    (longitude latitude dt speed : ℚ) :
    Instructions → List Checkpoint → Instructions × List Checkpoint
  | instructions, [] => (instructions, [])
  | instructions, ch :: rest =>
    let dist := distance_on_surface longitude latitude ch.longitude ch.latitude
    let jump := dt * |speed|
    let withSail : Instructions :=
      { instructions with sail := some (sailValue ch.radius jump dist) }
    let ch1 := if dist < ch.radius then { ch with reached := true } else ch
    if ch1.reached then
      match runAux distance_on_surface longitude latitude dt speed withSail rest with
      | (instr2, rest2) => (instr2, ch1 :: rest2)
    else
      ({ withSail with
          location := some { longitude := ch1.longitude, latitude := ch1.latitude } },
        ch1 :: rest)

/-- Embedding of `Bot.run` (lines 57-146 of `src/bot.py`).  The two query
collaborators are called (their results bound and discarded, mirroring the
`TODO`-marked block in the source) and the course is scanned by `runAux`.
The returned pair holds the instructions and the post-call bot state. -/
def Bot.run {α β : Type} (self : Bot)
    (distance_on_surface : ℚ → ℚ → ℚ → ℚ → ℚ)
    (t dt longitude latitude heading speed : ℚ) (vector : ℚ × ℚ)
    (forecast : ℚ → ℚ → ℚ → α) (world_map : ℚ → ℚ → β) :
    Instructions × Bot :=
  let instructions : Instructions := {}
  let current_position_forecast := forecast latitude longitude 0
  let current_position_terrain := world_map latitude longitude
  match runAux distance_on_surface longitude latitude dt speed instructions self.course with
  | (instr, course1) => (instr, { self with course := course1 })

/-- Embedding of `Bot.__init__`: the hardcoded round-the-world course.
`config.start` is external configuration, modelled by the two
parameters. -/
def mkBot (start_latitude start_longitude : ℚ) : Bot :=
  { team := "TeamName"
    course := [
      { latitude := 43.797109, longitude := -11.264905, radius := 50 },
      { longitude := -57.16281, latitude := 16.79314, radius := 50 },
      { longitude := -60.86658, latitude := 14.33136, radius := 10 },
      { longitude := -75.99475, latitude := 14.88418, radius := 50 },
      { longitude := -80.25195, latitude := 10.05314, radius := 30 },
      { longitude := -79.91893, latitude := 9.34789, radius := 10 },
      { longitude := -79.47879, latitude := 8.92079, radius := 10 },
      { longitude := -79.21698, latitude := 6.81393, radius := 30 },
      { longitude := -150.0, latitude := 3, radius := 100 },
      { longitude := 132.97296, latitude := 2.67776, radius := 50 },
      { longitude := 129.74323, latitude := -2.44015, radius := 10 },
      { longitude := 125.12873, latitude := -2.96691, radius := 10 },
      { longitude := 128.47406, latitude := -8.21340, radius := 50 },
      { longitude := 128.54547, latitude := -11.34191, radius := 10 },
      { longitude := 115.78259, latitude := -14.16543, radius := 50 },
      { longitude := 70, latitude := -20, radius := 50 },
      { longitude := 22.09, latitude := -36.693, radius := 50 },
      { longitude := 12, latitude := -36.9, radius := 50 },
      { longitude := -24.97424, latitude := 14.06509, radius := 50 },
      { longitude := -11.13147, latitude := 45.53168, radius := 50 },
      { latitude := start_latitude, longitude := start_longitude, radius := 5 } ] }

/-- Specification device: the effect of one scan of the loop on the course
alone (it does not depend on the instructions being threaded, nor on
`dt`/`speed`). -/
def scanCourse (distance_on_surface : ℚ → ℚ → ℚ → ℚ → ℚ)
    (longitude latitude : ℚ) : List Checkpoint → List Checkpoint
  | [] => []
  | ch :: rest =>
    let ch1 :=
      if distance_on_surface longitude latitude ch.longitude ch.latitude < ch.radius
      then { ch with reached := true } else ch
    if ch1.reached then ch1 :: scanCourse distance_on_surface longitude latitude rest
    else ch1 :: rest

/-- Specification device: whether the scan of the loop examines position
`j` of the course (every earlier checkpoint is already reached or is
captured this tick, so the loop does not break before `j`). -/
def scanReaches (distance_on_surface : ℚ → ℚ → ℚ → ℚ → ℚ)
    (longitude latitude : ℚ) : List Checkpoint → Nat → Bool
  | _, 0 => true
  | [], _ + 1 => true
  | ch :: rest, j + 1 =>
    (ch.reached
        || decide (distance_on_surface longitude latitude ch.longitude ch.latitude
              < ch.radius))
      && scanReaches distance_on_surface longitude latitude rest j

/-- One tick's worth of vessel-state input to `Bot.run` (the query
collaborators are irrelevant to the evolution of the bot state, see
`run_query_noninterference`, so they are fixed to trivial ones in
`runStep`). -/
structure RunInput where
  distance_on_surface : ℚ → ℚ → ℚ → ℚ → ℚ
  t : ℚ
  dt : ℚ
  longitude : ℚ
  latitude : ℚ
  heading : ℚ
  speed : ℚ
  vector : ℚ × ℚ

/-- The bot state after one call of `Bot.run` on the given input. -/
def runStep (bot : Bot) (inp : RunInput) : Bot :=
  (bot.run inp.distance_on_surface inp.t inp.dt inp.longitude inp.latitude
    inp.heading inp.speed inp.vector (fun _ _ _ => ()) (fun _ _ => ())).2

/-- The bot state after a sequence of calls of `Bot.run`, one per tick. -/
def runSeq (bot : Bot) (inputs : List RunInput) : Bot :=
  inputs.foldl runStep bot

/-- The scanning loop of `Bot.run` written in the `Except` monad, so that
raising a Python exception is representable as `Except.error`.  No step of
the loop can raise: in particular the quotient `ch.radius / jump` inside
`sailValue` is a numpy `float64` division, which never raises on a zero
denominator (it yields `inf`/`nan` with a warning). -/
def runAuxE (distance_on_surface : ℚ → ℚ → ℚ → ℚ → ℚ)
    (longitude latitude dt speed : ℚ) :
    Instructions → List Checkpoint → Except String (Instructions × List Checkpoint)
  | instructions, [] => Except.ok (instructions, [])
  | instructions, ch :: rest => do
    let dist := distance_on_surface longitude latitude ch.longitude ch.latitude
    let jump := dt * |speed|
    let withSail : Instructions :=
      { instructions with sail := some (sailValue ch.radius jump dist) }
    let ch1 := if dist < ch.radius then { ch with reached := true } else ch
    if ch1.reached then do
      let p ← runAuxE distance_on_surface longitude latitude dt speed withSail rest
      Except.ok (p.1, ch1 :: p.2)
    else
      Except.ok ({ withSail with
          location := some { longitude := ch1.longitude, latitude := ch1.latitude } },
        ch1 :: rest)

/-- `Bot.run` written in the `Except` monad (see `runAuxE`). -/
def Bot.runE {α β : Type} (self : Bot)
    (distance_on_surface : ℚ → ℚ → ℚ → ℚ → ℚ)
    (t dt longitude latitude heading speed : ℚ) (vector : ℚ × ℚ)
    (forecast : ℚ → ℚ → ℚ → α) (world_map : ℚ → ℚ → β) :
    Except String (Instructions × Bot) := do
  let instructions : Instructions := {}
  let current_position_forecast := forecast latitude longitude 0
  let current_position_terrain := world_map latitude longitude
  let p ← runAuxE distance_on_surface longitude latitude dt speed instructions self.course
  Except.ok (p.1, { self with course := p.2 })

/-! ## Helper lemmas -/

/-- Marking a checkpoint that is already reached changes nothing. -/
lemma mark_reached_id (ch : Checkpoint) (h : ch.reached = true) (d : ℚ) :
    (if d < ch.radius then { ch with reached := true } else ch) = ch := by
  cases ch with
  | mk lat lon r re => split <;> simp_all

/-- The instructions component of `Bot.run` is that of the scanning loop,
started on the fresh `Instructions()`. -/
lemma run_fst {α β : Type} (bot : Bot) (D : ℚ → ℚ → ℚ → ℚ → ℚ)
    (t dt lon lat hdg sp : ℚ) (v : ℚ × ℚ)
    (f : ℚ → ℚ → ℚ → α) (w : ℚ → ℚ → β) :
    (bot.run D t dt lon lat hdg sp v f w).1 =
      (runAux D lon lat dt sp {} bot.course).1 := rfl

/-- The post-call course of `Bot.run` is the course component of the
scanning loop. -/
lemma run_snd_course {α β : Type} (bot : Bot) (D : ℚ → ℚ → ℚ → ℚ → ℚ)
    (t dt lon lat hdg sp : ℚ) (v : ℚ × ℚ)
    (f : ℚ → ℚ → ℚ → α) (w : ℚ → ℚ → β) :
    (bot.run D t dt lon lat hdg sp v f w).2.course =
      (runAux D lon lat dt sp {} bot.course).2 := rfl

/-- `Bot.run` does not touch the team label. -/
lemma run_snd_team {α β : Type} (bot : Bot) (D : ℚ → ℚ → ℚ → ℚ → ℚ)
    (t dt lon lat hdg sp : ℚ) (v : ℚ × ℚ)
    (f : ℚ → ℚ → ℚ → α) (w : ℚ → ℚ → β) :
    (bot.run D t dt lon lat hdg sp v f w).2.team = bot.team := rfl

/-- The reached flag after the reachability check of one iteration. -/
lemma marked_reached_iff (ch : Checkpoint) (d : ℚ) :
    (if d < ch.radius then { ch with reached := true } else ch).reached =
      (ch.reached || decide (d < ch.radius)) := by
  split <;> simp_all

/-- Unfolding the loop at a checkpoint on which it breaks: the checkpoint
is unreached and the vessel is not within its radius, so its coordinates
become the location directive and the rest of the course is untouched. -/
lemma runAux_cons_break (D : ℚ → ℚ → ℚ → ℚ → ℚ) (lon lat dt sp : ℚ)
    (instr : Instructions) (ch : Checkpoint) (rest : List Checkpoint)
    (hd : ¬ D lon lat ch.longitude ch.latitude < ch.radius)
    (hr : ch.reached = false) :
    runAux D lon lat dt sp instr (ch :: rest) =
      ({ instr with
          sail := some (sailValue ch.radius (dt * |sp|)
            (D lon lat ch.longitude ch.latitude)),
          location := some { longitude := ch.longitude, latitude := ch.latitude } },
        ch :: rest) := by
  simp only [runAux]
  rw [if_neg hd, if_neg (by simp [hr])]

/-- Unfolding the loop at a checkpoint it passes over (already reached, or
captured this tick): the sail value is overwritten and the scan goes on. -/
lemma runAux_cons_continue (D : ℚ → ℚ → ℚ → ℚ → ℚ) (lon lat dt sp : ℚ)
    (instr : Instructions) (ch : Checkpoint) (rest : List Checkpoint)
    (h : ch.reached = true ∨ D lon lat ch.longitude ch.latitude < ch.radius) :
    runAux D lon lat dt sp instr (ch :: rest) =
      ((runAux D lon lat dt sp
          { instr with sail := some (sailValue ch.radius (dt * |sp|)
              (D lon lat ch.longitude ch.latitude)) } rest).1,
        (if D lon lat ch.longitude ch.latitude < ch.radius
          then { ch with reached := true } else ch) ::
        (runAux D lon lat dt sp
          { instr with sail := some (sailValue ch.radius (dt * |sp|)
              (D lon lat ch.longitude ch.latitude)) } rest).2) := by
  have hcond : (if D lon lat ch.longitude ch.latitude < ch.radius
      then { ch with reached := true } else ch).reached = true := by
    rcases h with h | h
    · rw [mark_reached_id ch h]; exact h
    · rw [if_pos h]
  simp only [runAux]
  rw [if_pos hcond]

/-- The sail value produced by the loop on a nonempty course is the sail
heuristic value of some examined checkpoint. -/
lemma runAux_fst_sail (D : ℚ → ℚ → ℚ → ℚ → ℚ) (lon lat dt sp : ℚ)
    (instr : Instructions) (ch : Checkpoint) (rest : List Checkpoint) :
    ∃ c ∈ ch :: rest, (runAux D lon lat dt sp instr (ch :: rest)).1.sail =
      some (sailValue c.radius (dt * |sp|) (D lon lat c.longitude c.latitude)) := by
  induction rest generalizing instr ch with
  | nil =>
    refine ⟨ch, List.mem_cons_self ch _, ?_⟩
    by_cases h : ch.reached = true ∨ D lon lat ch.longitude ch.latitude < ch.radius
    · rw [runAux_cons_continue D lon lat dt sp instr ch [] h]
      rfl
    · rw [not_or] at h
      rw [runAux_cons_break D lon lat dt sp instr ch [] h.2
        (Bool.eq_false_iff.mpr h.1)]
  | cons ch2 rest2 ih =>
    by_cases h : ch.reached = true ∨ D lon lat ch.longitude ch.latitude < ch.radius
    · rw [runAux_cons_continue D lon lat dt sp instr ch (ch2 :: rest2) h]
      obtain ⟨c, hc, hsail⟩ := ih
        { instr with sail := some (sailValue ch.radius (dt * |sp|)
            (D lon lat ch.longitude ch.latitude)) } ch2
      exact ⟨c, List.mem_cons_of_mem ch hc, hsail⟩
    · rw [not_or] at h
      refine ⟨ch, List.mem_cons_self ch _, ?_⟩
      rw [runAux_cons_break D lon lat dt sp instr ch (ch2 :: rest2) h.2
        (Bool.eq_false_iff.mpr h.1)]

/-- `scanCourse` at a checkpoint on which the loop breaks. -/
lemma scanCourse_cons_break (D : ℚ → ℚ → ℚ → ℚ → ℚ) (lon lat : ℚ)
    (ch : Checkpoint) (rest : List Checkpoint)
    (hd : ¬ D lon lat ch.longitude ch.latitude < ch.radius)
    (hr : ch.reached = false) :
    scanCourse D lon lat (ch :: rest) = ch :: rest := by
  simp only [scanCourse]
  rw [if_neg hd, if_neg (by simp [hr])]

/-- `scanCourse` at a checkpoint the loop passes over. -/
lemma scanCourse_cons_continue (D : ℚ → ℚ → ℚ → ℚ → ℚ) (lon lat : ℚ)
    (ch : Checkpoint) (rest : List Checkpoint)
    (h : ch.reached = true ∨ D lon lat ch.longitude ch.latitude < ch.radius) :
    scanCourse D lon lat (ch :: rest) =
      (if D lon lat ch.longitude ch.latitude < ch.radius
        then { ch with reached := true } else ch) :: scanCourse D lon lat rest := by
  have hcond : (if D lon lat ch.longitude ch.latitude < ch.radius
      then { ch with reached := true } else ch).reached = true := by
    rcases h with h | h
    · rw [mark_reached_id ch h]; exact h
    · rw [if_pos h]
  simp only [scanCourse]
  rw [if_pos hcond]

/-- The course component of the loop is `scanCourse`: it does not depend
on the instructions being threaded nor on `dt`/`speed`. -/
lemma runAux_snd (D : ℚ → ℚ → ℚ → ℚ → ℚ) (lon lat dt sp : ℚ)
    (instr : Instructions) (l : List Checkpoint) :
    (runAux D lon lat dt sp instr l).2 = scanCourse D lon lat l := by
  induction l generalizing instr with
  | nil => rfl
  | cons ch rest ih =>
    by_cases h : ch.reached = true ∨ D lon lat ch.longitude ch.latitude < ch.radius
    · rw [runAux_cons_continue D lon lat dt sp instr ch rest h,
        scanCourse_cons_continue D lon lat ch rest h]
      simp [ih]
    · rw [not_or] at h
      rw [runAux_cons_break D lon lat dt sp instr ch rest h.2
          (Bool.eq_false_iff.mpr h.1),
        scanCourse_cons_break D lon lat ch rest h.2 (Bool.eq_false_iff.mpr h.1)]

/-- Pointwise description of the effect of one scan on the course: the
checkpoint at position `j` is marked reached exactly when the scan reaches
position `j` and the vessel is within its radius; otherwise it is left
unchanged. -/
lemma scanCourse_getElem? (D : ℚ → ℚ → ℚ → ℚ → ℚ) (lon lat : ℚ)
    (l : List Checkpoint) (j : ℕ) :
    (scanCourse D lon lat l)[j]? = (l[j]?).map (fun c =>
      if scanReaches D lon lat l j ∧ D lon lat c.longitude c.latitude < c.radius
      then { c with reached := true } else c) := by
  induction l generalizing j with
  | nil => simp [scanCourse]
  | cons ch rest ih =>
    by_cases h : ch.reached = true ∨ D lon lat ch.longitude ch.latitude < ch.radius
    · rw [scanCourse_cons_continue D lon lat ch rest h]
      cases j with
      | zero =>
        have h0 : scanReaches D lon lat (ch :: rest) 0 = true := rfl
        simp [h0]
      | succ j =>
        have hstep : scanReaches D lon lat (ch :: rest) (j + 1) =
            scanReaches D lon lat rest j := by
          simp only [scanReaches]
          rcases h with h | h <;> simp [h]
        simp only [List.getElem?_cons_succ, hstep, ih]
    · rw [not_or] at h
      have hr := Bool.eq_false_iff.mpr h.1
      rw [scanCourse_cons_break D lon lat ch rest h.2 hr]
      cases j with
      | zero =>
        have h0 : scanReaches D lon lat (ch :: rest) 0 = true := rfl
        simp [h0, h.2]
      | succ j =>
        have hstep : scanReaches D lon lat (ch :: rest) (j + 1) = false := by
          simp only [scanReaches]
          simp [hr, h.2]
        simp only [List.getElem?_cons_succ, hstep]
        cases rest[j]? <;> simp

/-- The location directive produced by the loop points at the first
checkpoint of the updated course that is still unreached (and is unset
when there is none). -/
lemma runAux_fst_location (D : ℚ → ℚ → ℚ → ℚ → ℚ) (lon lat dt sp : ℚ)
    (instr : Instructions) (l : List Checkpoint) (h : instr.location = none) :
    (runAux D lon lat dt sp instr l).1.location =
      ((runAux D lon lat dt sp instr l).2.find? (fun c => !c.reached)).map
        (fun c => { longitude := c.longitude, latitude := c.latitude : Location }) := by
  induction l generalizing instr with
  | nil => simpa [runAux] using h
  | cons ch rest ih =>
    by_cases hc : ch.reached = true ∨ D lon lat ch.longitude ch.latitude < ch.radius
    · rw [runAux_cons_continue D lon lat dt sp instr ch rest hc]
      have hcond : (if D lon lat ch.longitude ch.latitude < ch.radius
          then { ch with reached := true } else ch).reached = true := by
        rcases hc with hc | hc
        · rw [mark_reached_id ch hc]; exact hc
        · rw [if_pos hc]
      have hfind : ((if D lon lat ch.longitude ch.latitude < ch.radius
          then { ch with reached := true } else ch) ::
            (runAux D lon lat dt sp
              { instr with sail := some (sailValue ch.radius (dt * |sp|)
                  (D lon lat ch.longitude ch.latitude)) } rest).2).find?
            (fun c => !c.reached) =
          ((runAux D lon lat dt sp
              { instr with sail := some (sailValue ch.radius (dt * |sp|)
                  (D lon lat ch.longitude ch.latitude)) } rest).2).find?
            (fun c => !c.reached) := by
        rw [List.find?_cons_of_neg]
        simp [hcond]
      rw [hfind]
      exact ih _ h
    · rw [not_or] at hc
      rw [runAux_cons_break D lon lat dt sp instr ch rest hc.2
        (Bool.eq_false_iff.mpr hc.1)]
      rw [List.find?_cons_of_pos]
      · rfl
      · simp [Bool.eq_false_iff.mpr hc.1]

/-- When every checkpoint is already reached the loop never breaks, and
the surviving sail value is the one computed for the last checkpoint. -/
lemma runAux_all_reached (D : ℚ → ℚ → ℚ → ℚ → ℚ) (lon lat dt sp : ℚ)
    (instr : Instructions) (l : List Checkpoint) (c : Checkpoint)
    (h : ∀ x ∈ l, x.reached = true) (hlast : l.getLast? = some c) :
    (runAux D lon lat dt sp instr l).1 =
      { instr with sail := some (sailValue c.radius (dt * |sp|)
          (D lon lat c.longitude c.latitude)) } := by
  induction l generalizing instr c with
  | nil => simp at hlast
  | cons ch rest ih =>
    have hch : ch.reached = true := h ch (List.mem_cons_self ch rest)
    rw [runAux_cons_continue D lon lat dt sp instr ch rest (Or.inl hch)]
    cases rest with
    | nil =>
      have : c = ch := by simpa using hlast.symm
      subst this
      rfl
    | cons c2 r2 =>
      rw [List.getLast?_cons_cons] at hlast
      rw [ih _ c (fun x hx => h x (List.mem_cons_of_mem ch hx)) hlast]

/-- The instructions produced on a nonempty course do not depend on the
incoming sail value: it is overwritten at the first checkpoint. -/
lemma runAux_fst_sail_irrel (D : ℚ → ℚ → ℚ → ℚ → ℚ) (lon lat dt sp : ℚ)
    (instr : Instructions) (v : Option ℚ) (ch : Checkpoint)
    (rest : List Checkpoint) :
    (runAux D lon lat dt sp { instr with sail := v } (ch :: rest)).1 =
      (runAux D lon lat dt sp instr (ch :: rest)).1 := rfl

/-- A block of reached checkpoints at the head of the course is passed
over without affecting the final instructions: their sail overwrites are
themselves overwritten at the first checkpoint of the tail. -/
lemma runAux_fst_append_reached (D : ℚ → ℚ → ℚ → ℚ → ℚ) (lon lat dt sp : ℚ)
    (pre : List Checkpoint) (ch : Checkpoint) (rest : List Checkpoint)
    (instr : Instructions) (hpre : ∀ c ∈ pre, c.reached = true) :
    (runAux D lon lat dt sp instr (pre ++ ch :: rest)).1 =
      (runAux D lon lat dt sp instr (ch :: rest)).1 := by
  induction pre generalizing instr with
  | nil => rfl
  | cons p pre2 ih =>
    have hp : p.reached = true := hpre p (List.mem_cons_self p pre2)
    rw [List.cons_append,
      runAux_cons_continue D lon lat dt sp instr p (pre2 ++ ch :: rest) (Or.inl hp)]
    dsimp only
    rw [ih _ (fun c hc => hpre c (List.mem_cons_of_mem p hc))]
    exact runAux_fst_sail_irrel D lon lat dt sp instr _ ch rest

/-- The scan-reach predicate is downward closed in the position. -/
lemma scanReaches_mono (D : ℚ → ℚ → ℚ → ℚ → ℚ) (lon lat : ℚ)
    (l : List Checkpoint) (j k : ℕ) (hk : k ≤ j)
    (h : scanReaches D lon lat l j = true) : scanReaches D lon lat l k = true := by
  induction l generalizing j k with
  | nil => cases k with | zero => rfl | succ k => rfl
  | cons ch rest ih =>
    cases k with
    | zero => rfl
    | succ k =>
      cases j with
      | zero => omega
      | succ j =>
        simp only [scanReaches, Bool.and_eq_true] at h ⊢
        exact ⟨h.1, ih j k (by omega) h.2⟩

/-- If the scan reaches position `j`, then each checkpoint strictly before
`j` is already reached or is captured this tick. -/
lemma scanReaches_lt (D : ℚ → ℚ → ℚ → ℚ → ℚ) (lon lat : ℚ)
    (l : List Checkpoint) (j k : ℕ) (hk : k < j)
    (h : scanReaches D lon lat l j = true) (c : Checkpoint)
    (hc : l[k]? = some c) :
    c.reached = true ∨ D lon lat c.longitude c.latitude < c.radius := by
  induction l generalizing j k with
  | nil => simp at hc
  | cons ch rest ih =>
    cases j with
    | zero => omega
    | succ j =>
      simp only [scanReaches, Bool.and_eq_true] at h
      cases k with
      | zero =>
        simp only [List.getElem?_cons_zero, Option.some.injEq] at hc
        subst hc
        have := h.1
        rcases (by simpa using this :
            ch.reached = true ∨ D lon lat ch.longitude ch.latitude < ch.radius) with
          h1 | h1
        · exact Or.inl h1
        · exact Or.inr h1
      | succ k =>
        simp only [List.getElem?_cons_succ] at hc
        exact ih j k (by omega) h.2 hc

/-- The sail heuristic stays within `[0, 1]` for a positive radius and a
positive jump distance. -/
lemma sailValue_bounds (r jump d : ℚ) (hr : 0 < r) (hj : 0 < jump) :
    0 ≤ sailValue r jump d ∧ sailValue r jump d ≤ 1 := by
  unfold sailValue
  split
  · rw [if_neg (ne_of_gt hj)]
    exact ⟨le_min (div_pos hr hj).le zero_le_one, min_le_right _ _⟩
  · exact ⟨zero_le_one, le_refl 1⟩

/-- The `Except`-monad loop never raises: it agrees with the pure loop. -/
lemma runAuxE_eq (D : ℚ → ℚ → ℚ → ℚ → ℚ) (lon lat dt sp : ℚ)
    (instr : Instructions) (l : List Checkpoint) :
    runAuxE D lon lat dt sp instr l =
      Except.ok (runAux D lon lat dt sp instr l) := by
  induction l generalizing instr with
  | nil => rfl
  | cons ch rest ih =>
    simp only [runAuxE, runAux]
    split
    all_goals split
    all_goals try rw [ih]
    all_goals rfl

/-- The course after one `runStep` is the scan of the previous course. -/
lemma runStep_course (bot : Bot) (inp : RunInput) :
    (runStep bot inp).course =
      scanCourse inp.distance_on_surface inp.longitude inp.latitude bot.course := by
  unfold runStep
  rw [run_snd_course, runAux_snd]

/-- `runSeq` unfolds one call at a time. -/
lemma runSeq_cons (bot : Bot) (inp : RunInput) (rest : List RunInput) :
    runSeq bot (inp :: rest) = runSeq (runStep bot inp) rest := rfl

/-- `scanCourse` preserves the length of the course. -/
lemma scanCourse_length (D : ℚ → ℚ → ℚ → ℚ → ℚ) (lon lat : ℚ)
    (l : List Checkpoint) : (scanCourse D lon lat l).length = l.length := by
  induction l with
  | nil => rfl
  | cons ch rest ih =>
    by_cases h : ch.reached = true ∨ D lon lat ch.longitude ch.latitude < ch.radius
    · rw [scanCourse_cons_continue D lon lat ch rest h]
      simp [ih]
    · rw [not_or] at h
      rw [scanCourse_cons_break D lon lat ch rest h.2 (Bool.eq_false_iff.mpr h.1)]

/-! ## The claims -/

/-- C1: whenever `Bot.run` returns instructions whose location field is
set, that location carries the coordinates of the first checkpoint, in
sequence order, whose `reached` flag is false after the call's updates. -/
theorem run_location_first_unreached {α β : Type} (bot : Bot)
    (D : ℚ → ℚ → ℚ → ℚ → ℚ) (t dt lon lat hdg sp : ℚ) (v : ℚ × ℚ)
    (f : ℚ → ℚ → ℚ → α) (w : ℚ → ℚ → β) (loc : Location)
    (h : (bot.run D t dt lon lat hdg sp v f w).1.location = some loc) :
    ∃ ch, (bot.run D t dt lon lat hdg sp v f w).2.course.find?
        (fun c => !c.reached) = some ch ∧
      loc.latitude = ch.latitude ∧ loc.longitude = ch.longitude := by
  rw [run_fst, runAux_fst_location D lon lat dt sp {} bot.course rfl] at h
  rw [run_snd_course]
  obtain ⟨ch, hch, hloc⟩ := Option.map_eq_some'.mp h
  exact ⟨ch, hch, by rw [← hloc], by rw [← hloc]⟩

/-- Witness for `run_location_first_unreached`: the fresh bot, far from
every checkpoint, targets the first checkpoint of the course. -/
theorem run_location_first_unreached_witness :
    ∃ ch, ((mkBot 0 0).run (fun _ _ _ _ => 1000000) 0 1 0 0 0 1 (0, 0)
        (fun _ _ _ => (0 : ℚ)) (fun _ _ => (0 : ℚ))).2.course.find?
        (fun c => !c.reached) = some ch ∧
      (Location.mk (-11.264905) 43.797109).latitude = ch.latitude ∧
      (Location.mk (-11.264905) 43.797109).longitude = ch.longitude :=
  run_location_first_unreached (mkBot 0 0) (fun _ _ _ _ => 1000000) 0 1 0 0 0 1
    (0, 0) (fun _ _ _ => (0 : ℚ)) (fun _ _ => (0 : ℚ))
    (Location.mk (-11.264905) 43.797109) (by decide)

/-- C2 fails as stated: with the vessel far from the first checkpoint the
scan breaks there, so the second checkpoint of the fresh bot's course is
not marked reached even though the distance from the vessel to it (0) is
strictly below its radius (50). -/
theorem run_reached_iff_counterexample :
    (fun _ _ lon2 _ => if lon2 = -57.16281 then (0 : ℚ) else 1000000) 0 0
        (-57.16281 : ℚ) (16.79314 : ℚ) < 50 ∧
    ((mkBot 0 0).course[1]?).map
      (fun c => (c.longitude, c.latitude, c.radius, c.reached)) =
        some ((-57.16281 : ℚ), (16.79314 : ℚ), (50 : ℚ), false) ∧
    (((mkBot 0 0).run
        (fun _ _ lon2 _ => if lon2 = -57.16281 then (0 : ℚ) else 1000000)
        0 1 0 0 0 1 (0, 0) (fun _ _ _ => (0 : ℚ))
        (fun _ _ => (0 : ℚ))).2.course[1]?).map
      Checkpoint.reached = some false := by decide

/-- C2 (amended): in a call to `Bot.run`, the checkpoint at position `j`
transitions from unreached to reached exactly when it was unreached at
entry, the distance from the vessel to it is strictly below its radius,
and the scan reaches position `j` (each earlier checkpoint is already
reached or is itself captured this tick).  The original claim omits the
last conjunct. -/
theorem run_reached_iff {α β : Type} (bot : Bot)
    (D : ℚ → ℚ → ℚ → ℚ → ℚ) (t dt lon lat hdg sp : ℚ) (v : ℚ × ℚ)
    (f : ℚ → ℚ → ℚ → α) (w : ℚ → ℚ → β) (j : ℕ) (cIn cOut : Checkpoint)
    (hin : bot.course[j]? = some cIn)
    (hout : (bot.run D t dt lon lat hdg sp v f w).2.course[j]? = some cOut) :
    (cIn.reached = false ∧ cOut.reached = true) ↔
      (cIn.reached = false ∧ D lon lat cIn.longitude cIn.latitude < cIn.radius ∧
        scanReaches D lon lat bot.course j = true) := by
  rw [run_snd_course, runAux_snd, scanCourse_getElem?, hin] at hout
  simp only [Option.map_some', Option.some.injEq] at hout
  constructor
  · rintro ⟨h1, h2⟩
    by_cases hC : scanReaches D lon lat bot.course j = true ∧
        D lon lat cIn.longitude cIn.latitude < cIn.radius
    · exact ⟨h1, hC.2, hC.1⟩
    · rw [if_neg hC] at hout
      rw [← hout, h1] at h2
      cases h2
  · rintro ⟨h1, h2, h3⟩
    rw [if_pos ⟨h3, h2⟩] at hout
    exact ⟨h1, by rw [← hout]⟩

/-- Witness for `run_reached_iff`: a one-checkpoint bot sitting on its
checkpoint. -/
theorem run_reached_iff_witness :
    ((Checkpoint.mk 0 0 5 false).reached = false ∧
      (Checkpoint.mk 0 0 5 true).reached = true) ↔
      ((Checkpoint.mk 0 0 5 false).reached = false ∧
        (fun _ _ _ _ => (0 : ℚ)) 0 0 (Checkpoint.mk 0 0 5 false).longitude
            (Checkpoint.mk 0 0 5 false).latitude <
          (Checkpoint.mk 0 0 5 false).radius ∧
        scanReaches (fun _ _ _ _ => (0 : ℚ)) 0 0
          (Bot.mk "t" [Checkpoint.mk 0 0 5 false]).course 0 = true) :=
  run_reached_iff (Bot.mk "t" [Checkpoint.mk 0 0 5 false]) (fun _ _ _ _ => 0)
    0 1 0 0 0 1 (0, 0) (fun _ _ _ => (0 : ℚ)) (fun _ _ => (0 : ℚ)) 0
    (Checkpoint.mk 0 0 5 false) (Checkpoint.mk 0 0 5 true) (by decide) (by decide)

/-- C3: a reached flag is monotone across any sequence of calls to
`Bot.run`: once true it stays true; no call resets it to false. -/
theorem run_reached_monotone (bot : Bot) (inputs : List RunInput) (j : ℕ)
    (h : (bot.course[j]?).map Checkpoint.reached = some true) :
    ((runSeq bot inputs).course[j]?).map Checkpoint.reached = some true := by
  induction inputs generalizing bot with
  | nil => exact h
  | cons inp rest ih =>
    have hstep : ((runStep bot inp).course[j]?).map Checkpoint.reached = some true := by
      rw [runStep_course, scanCourse_getElem?]
      obtain ⟨c, hc, hrc⟩ := Option.map_eq_some'.mp h
      rw [hc]
      simp only [Option.map_some', Option.some.injEq]
      split <;> simp_all
    rw [runSeq_cons]
    exact ih (runStep bot inp) hstep

/-- Witness for `run_reached_monotone`: one already-reached checkpoint
survives one further tick. -/
theorem run_reached_monotone_witness :
    (((runSeq (Bot.mk "t" [Checkpoint.mk 0 0 5 true])
        [RunInput.mk (fun _ _ _ _ => 1000) 0 1 0 0 0 1 (0, 0)]).course[0]?).map
      Checkpoint.reached = some true) :=
  run_reached_monotone (Bot.mk "t" [Checkpoint.mk 0 0 5 true])
    [RunInput.mk (fun _ _ _ _ => 1000) 0 1 0 0 0 1 (0, 0)] 0 (by decide)

/-- C4: with a positive jump distance `dt * |speed|` and positive
checkpoint radii, a call on a nonempty course returns a sail value that is
set and lies in the closed interval `[0, 1]`. -/
theorem run_sail_bounds {α β : Type} (bot : Bot)
    (D : ℚ → ℚ → ℚ → ℚ → ℚ) (t dt lon lat hdg sp : ℚ) (v : ℚ × ℚ)
    (f : ℚ → ℚ → ℚ → α) (w : ℚ → ℚ → β)
    (hj : 0 < dt * |sp|) (hne : bot.course ≠ [])
    (hrad : ∀ c ∈ bot.course, 0 < c.radius) :
    ∃ s, (bot.run D t dt lon lat hdg sp v f w).1.sail = some s ∧
      0 ≤ s ∧ s ≤ 1 := by
  rw [run_fst]
  obtain ⟨ch, rest, hcr⟩ := List.exists_cons_of_ne_nil hne
  rw [hcr]
  obtain ⟨c, hc, hsail⟩ := runAux_fst_sail D lon lat dt sp {} ch rest
  refine ⟨sailValue c.radius (dt * |sp|) (D lon lat c.longitude c.latitude),
    hsail, ?_⟩
  exact sailValue_bounds _ _ _ (hrad c (by rw [hcr]; exact hc)) hj

/-- Witness for `run_sail_bounds` on the fresh bot. -/
theorem run_sail_bounds_witness :
    ∃ s, ((mkBot 0 0).run (fun _ _ _ _ => 1000000) 0 1 0 0 0 1 (0, 0)
        (fun _ _ _ => (0 : ℚ)) (fun _ _ => (0 : ℚ))).1.sail = some s ∧
      0 ≤ s ∧ s ≤ 1 :=
  run_sail_bounds (mkBot 0 0) (fun _ _ _ _ => 1000000) 0 1 0 0 0 1 (0, 0)
    (fun _ _ _ => (0 : ℚ)) (fun _ _ => (0 : ℚ)) (by decide) (by decide) (by decide)

/-- C5: with the active (first unreached) checkpoint of radius 10, `dt = 1`
and `speed = 20` (jump 20): at distance 45 the returned sail value is 1,
and at distance 35 it is `min(10/20, 1) = 1/2`. -/
theorem run_sail_throttling {α β : Type} (bot : Bot)
    (D1 D2 : ℚ → ℚ → ℚ → ℚ → ℚ) (t dt lon lat hdg sp : ℚ) (v : ℚ × ℚ)
    (f : ℚ → ℚ → ℚ → α) (w : ℚ → ℚ → β)
    (pre rest : List Checkpoint) (ch : Checkpoint)
    (hc : bot.course = pre ++ ch :: rest)
    (hpre : ∀ c ∈ pre, c.reached = true)
    (hch : ch.reached = false) (hr : ch.radius = 10)
    (hdt : dt = 1) (hsp : sp = 20)
    (h45 : D1 lon lat ch.longitude ch.latitude = 45)
    (h35 : D2 lon lat ch.longitude ch.latitude = 35) :
    (bot.run D1 t dt lon lat hdg sp v f w).1.sail = some 1 ∧
    (bot.run D2 t dt lon lat hdg sp v f w).1.sail = some (1 / 2) := by
  subst hdt
  subst hsp
  constructor
  · rw [run_fst, hc, runAux_fst_append_reached D1 lon lat 1 20 pre ch rest {} hpre,
      runAux_cons_break D1 lon lat 1 20 {} ch rest (by rw [h45, hr]; decide) hch]
    show some (sailValue ch.radius ((1 : ℚ) * |(20 : ℚ)|)
      (D1 lon lat ch.longitude ch.latitude)) = some 1
    rw [h45, hr]
    decide
  · rw [run_fst, hc, runAux_fst_append_reached D2 lon lat 1 20 pre ch rest {} hpre,
      runAux_cons_break D2 lon lat 1 20 {} ch rest (by rw [h35, hr]; decide) hch]
    show some (sailValue ch.radius ((1 : ℚ) * |(20 : ℚ)|)
      (D2 lon lat ch.longitude ch.latitude)) = some (1 / 2)
    rw [h35, hr]
    decide

/-- Witness for `run_sail_throttling`: a one-checkpoint bot at distance 45
and at distance 35. -/
theorem run_sail_throttling_witness :
    ((Bot.mk "t" [Checkpoint.mk 0 0 10 false]).run (fun _ _ _ _ => 45)
        0 1 0 0 0 20 (0, 0) (fun _ _ _ => (0 : ℚ))
        (fun _ _ => (0 : ℚ))).1.sail = some 1 ∧
    ((Bot.mk "t" [Checkpoint.mk 0 0 10 false]).run (fun _ _ _ _ => 35)
        0 1 0 0 0 20 (0, 0) (fun _ _ _ => (0 : ℚ))
        (fun _ _ => (0 : ℚ))).1.sail = some (1 / 2) :=
  run_sail_throttling (Bot.mk "t" [Checkpoint.mk 0 0 10 false])
    (fun _ _ _ _ => 45) (fun _ _ _ _ => 35) 0 1 0 0 0 20 (0, 0)
    (fun _ _ _ => (0 : ℚ)) (fun _ _ => (0 : ℚ)) [] []
    (Checkpoint.mk 0 0 10 false) rfl (by decide) rfl rfl rfl rfl rfl rfl

/-- C6: when every checkpoint is already reached at entry, the returned
instructions carry no location directive, and the sail value is the one
the heuristic computes for the final checkpoint of the course. -/
theorem run_all_reached_no_location {α β : Type} (bot : Bot)
    (D : ℚ → ℚ → ℚ → ℚ → ℚ) (t dt lon lat hdg sp : ℚ) (v : ℚ × ℚ)
    (f : ℚ → ℚ → ℚ → α) (w : ℚ → ℚ → β) (c : Checkpoint)
    (hall : ∀ x ∈ bot.course, x.reached = true)
    (hlast : bot.course.getLast? = some c) :
    (bot.run D t dt lon lat hdg sp v f w).1.location = none ∧
    (bot.run D t dt lon lat hdg sp v f w).1.sail =
      some (sailValue c.radius (dt * |sp|) (D lon lat c.longitude c.latitude)) := by
  have h1 := runAux_all_reached D lon lat dt sp {} bot.course c hall hlast
  constructor
  · rw [run_fst, h1]
  · rw [run_fst, h1]

/-- Witness for `run_all_reached_no_location`: a one-checkpoint bot whose
checkpoint is already reached. -/
theorem run_all_reached_no_location_witness :
    ((Bot.mk "t" [Checkpoint.mk 0 0 5 true]).run (fun _ _ _ _ => 7)
        0 1 0 0 0 1 (0, 0) (fun _ _ _ => (0 : ℚ))
        (fun _ _ => (0 : ℚ))).1.location = none ∧
    ((Bot.mk "t" [Checkpoint.mk 0 0 5 true]).run (fun _ _ _ _ => 7)
        0 1 0 0 0 1 (0, 0) (fun _ _ _ => (0 : ℚ))
        (fun _ _ => (0 : ℚ))).1.sail =
      some (sailValue (Checkpoint.mk 0 0 5 true).radius ((1 : ℚ) * |(1 : ℚ)|)
        ((fun _ _ _ _ => (7 : ℚ)) 0 0 (Checkpoint.mk 0 0 5 true).longitude
          (Checkpoint.mk 0 0 5 true).latitude)) :=
  run_all_reached_no_location (Bot.mk "t" [Checkpoint.mk 0 0 5 true])
    (fun _ _ _ _ => 7) 0 1 0 0 0 1 (0, 0) (fun _ _ _ => (0 : ℚ))
    (fun _ _ => (0 : ℚ)) (Checkpoint.mk 0 0 5 true) (by decide) rfl

/-- C7: `Bot.run` is total over well-formed inputs.  The `Except`-monad
embedding, in which a raised Python exception would be an `Except.error`,
always returns `Except.ok` with the value of the pure embedding: the loop
has no failure path, and in particular the `radius / jump` quotient of the
sail heuristic is a numpy `float64` division that never raises (see
`sailValue`); the operation performs no validation of out-of-range
coordinates (they are ordinary ℚ inputs here). -/
theorem run_total {α β : Type} (bot : Bot)
    (D : ℚ → ℚ → ℚ → ℚ → ℚ) (t dt lon lat hdg sp : ℚ) (v : ℚ × ℚ)
    (f : ℚ → ℚ → ℚ → α) (w : ℚ → ℚ → β) :
    bot.runE D t dt lon lat hdg sp v f w =
      Except.ok (bot.run D t dt lon lat hdg sp v f w) := by
  simp only [Bot.runE, Bot.run]
  rw [runAuxE_eq]
  rfl

/-- C8: two-run noninterference.  Two calls in the same checkpoint state
with identical vessel-state inputs but arbitrarily different forecast and
world-map queries (of arbitrary result types) return identical
instructions and identical bot states: the query results never influence
the decision. -/
theorem run_query_noninterference {α β α2 β2 : Type} (bot : Bot)
    (D : ℚ → ℚ → ℚ → ℚ → ℚ) (t dt lon lat hdg sp : ℚ) (v : ℚ × ℚ)
    (f1 : ℚ → ℚ → ℚ → α) (w1 : ℚ → ℚ → β)
    (f2 : ℚ → ℚ → ℚ → α2) (w2 : ℚ → ℚ → β2) :
    bot.run D t dt lon lat hdg sp v f1 w1 =
      bot.run D t dt lon lat hdg sp v f2 w2 := rfl

/-- C9: frame condition.  A call to `Bot.run` leaves the team label, the
length of the course, and every checkpoint's latitude, longitude and
radius unchanged; only reached flags can change. -/
theorem run_frame {α β : Type} (bot : Bot)
    (D : ℚ → ℚ → ℚ → ℚ → ℚ) (t dt lon lat hdg sp : ℚ) (v : ℚ × ℚ)
    (f : ℚ → ℚ → ℚ → α) (w : ℚ → ℚ → β) :
    (bot.run D t dt lon lat hdg sp v f w).2.team = bot.team ∧
    (bot.run D t dt lon lat hdg sp v f w).2.course.length = bot.course.length ∧
    ∀ j : ℕ, ((bot.run D t dt lon lat hdg sp v f w).2.course[j]?).map
        (fun c => (c.latitude, c.longitude, c.radius)) =
      (bot.course[j]?).map (fun c => (c.latitude, c.longitude, c.radius)) := by
  refine ⟨rfl, ?_, ?_⟩
  · rw [run_snd_course, runAux_snd, scanCourse_length]
  · intro j
    rw [run_snd_course, runAux_snd, scanCourse_getElem?]
    cases h : bot.course[j]? with
    | none => rfl
    | some c =>
      simp only [Option.map_some', Option.some.injEq]
      split <;> rfl

/-- C10 fails as stated: with the vessel at distance 0 from every
checkpoint, a single call to `Bot.run` on the fresh bot flips the reached
flag of (at least) the first two checkpoints, so more than one flag
changes in one call. -/
theorem run_single_change_counterexample :
    ((mkBot 0 0).course[0]?).map Checkpoint.reached = some false ∧
    ((mkBot 0 0).course[1]?).map Checkpoint.reached = some false ∧
    (((mkBot 0 0).run (fun _ _ _ _ => 0) 0 1 0 0 0 1 (0, 0)
        (fun _ _ _ => (0 : ℚ)) (fun _ _ => (0 : ℚ))).2.course[0]?).map
      Checkpoint.reached = some true ∧
    (((mkBot 0 0).run (fun _ _ _ _ => 0) 0 1 0 0 0 1 (0, 0)
        (fun _ _ _ => (0 : ℚ)) (fun _ _ => (0 : ℚ))).2.course[1]?).map
      Checkpoint.reached = some true := by decide

/-- C10 (amended): every checkpoint whose flag changes in a call goes from
false to true, and when the checkpoint at position `j` changes, every
checkpoint before `j` that was unreached at entry is also reached after
the call — the changed flags are a contiguous run of the unreached
checkpoints starting at the first one; in particular the first changed
checkpoint is the first unreached at entry, but more than one flag can
change in a single call. -/
theorem run_changed_flags {α β : Type} (bot : Bot)
    (D : ℚ → ℚ → ℚ → ℚ → ℚ) (t dt lon lat hdg sp : ℚ) (v : ℚ × ℚ)
    (f : ℚ → ℚ → ℚ → α) (w : ℚ → ℚ → β) (j : ℕ) (cIn cOut : Checkpoint)
    (hin : bot.course[j]? = some cIn)
    (hout : (bot.run D t dt lon lat hdg sp v f w).2.course[j]? = some cOut)
    (hchange : cIn.reached ≠ cOut.reached) :
    cIn.reached = false ∧ cOut.reached = true ∧
      ∀ k, k < j → ∀ dIn dOut, bot.course[k]? = some dIn →
        (bot.run D t dt lon lat hdg sp v f w).2.course[k]? = some dOut →
        dIn.reached = false → dOut.reached = true := by
  rw [run_snd_course, runAux_snd, scanCourse_getElem?, hin] at hout
  simp only [Option.map_some', Option.some.injEq] at hout
  by_cases hC : scanReaches D lon lat bot.course j = true ∧
      D lon lat cIn.longitude cIn.latitude < cIn.radius
  · rw [if_pos hC] at hout
    have hOut : cOut.reached = true := by rw [← hout]
    have hIn : cIn.reached = false := by
      cases hcin : cIn.reached
      · rfl
      · exact absurd (hcin.trans hOut.symm) hchange
    refine ⟨hIn, hOut, ?_⟩
    intro k hk dIn dOut hdin hdout hdf
    rw [run_snd_course, runAux_snd, scanCourse_getElem?, hdin] at hdout
    simp only [Option.map_some', Option.some.injEq] at hdout
    have hdist : D lon lat dIn.longitude dIn.latitude < dIn.radius := by
      rcases scanReaches_lt D lon lat bot.course j k hk hC.1 dIn hdin with h | h
      · rw [hdf] at h; cases h
      · exact h
    rw [if_pos ⟨scanReaches_mono D lon lat bot.course j k (le_of_lt hk) hC.1,
      hdist⟩] at hdout
    rw [← hdout]
  · rw [if_neg hC] at hout
    exact absurd (congrArg Checkpoint.reached hout) hchange

/-- Witness for `run_changed_flags`: a one-checkpoint bot sitting on its
checkpoint. -/
theorem run_changed_flags_witness :
    (Checkpoint.mk 0 0 5 false).reached = false ∧
    (Checkpoint.mk 0 0 5 true).reached = true ∧
      ∀ k, k < 0 → ∀ dIn dOut,
        (Bot.mk "t" [Checkpoint.mk 0 0 5 false]).course[k]? = some dIn →
        ((Bot.mk "t" [Checkpoint.mk 0 0 5 false]).run (fun _ _ _ _ => 0)
          0 1 0 0 0 1 (0, 0) (fun _ _ _ => (0 : ℚ))
          (fun _ _ => (0 : ℚ))).2.course[k]? = some dOut →
        dIn.reached = false → dOut.reached = true :=
  run_changed_flags (Bot.mk "t" [Checkpoint.mk 0 0 5 false]) (fun _ _ _ _ => 0)
    0 1 0 0 0 1 (0, 0) (fun _ _ _ => (0 : ℚ)) (fun _ _ => (0 : ℚ)) 0
    (Checkpoint.mk 0 0 5 false) (Checkpoint.mk 0 0 5 true)
    (by decide) (by decide) (by decide)

end Seil
